import Mathlib

/-!
Verification of the collection-run-to-qase pipeline.

The repository holds three near-duplicate scripts that read a Postman JSON
report, extract Qase case ids from execution names, fetch case steps, and
submit aggregated results:

* `src/submit_collection_results_to_qase.js`  (called Main below)
* `src/unnamed/part_000`                      (called V0 below)
* `src/unnamed/part_001`                      (called V1 below)

Strings are embedded as `List Char`; the pure result-building logic of each
script is embedded as total functions, with the remote HTTP responses passed
in as explicit arguments.
-/

namespace CollectionRunToQase

/-- An assertion from the report: `{ name, error? }`, where `error`, when
present, carries its `message`. Built by all three scripts from `e.tests`. -/
structure Assertion where
  name : List Char
  error : Option (List Char)
deriving DecidableEq

/-- One execution of the report: `{ name: e.requestExecuted.name,
assertions: e.tests || [] }` (all three scripts, identical). -/
structure Execution where
  name : List Char
  assertions : List Assertion
deriving DecidableEq

/-- A case step as returned by `GET /case/...`: `position`, `action` and
`expected_result` may each be absent in the JSON. Numeric positions are
modelled as naturals. -/
structure CaseStep where
  position : Option Nat
  action : Option (List Char)
  expected_result : Option (List Char)
deriving DecidableEq

/-- Character comparison used by the regex `/Qase:(\d+)/`: exact when the
`i` flag is absent (Main, V1), ASCII-case-folded when it is present (V0). -/
def eqCh (ci : Bool) (p c : Char) : Bool :=
  if ci then p.toLower == c.toLower else p == c

/-- Try to consume the literal pattern `ps` at the front of `l`, returning
the remainder on success. -/
def dropPat (ci : Bool) : List Char → List Char → Option (List Char)
  | [], l => some l
  | _ :: _, [] => none
  | p :: ps, c :: cs => if eqCh ci p c then dropPat ci ps cs else none

/-- The literal part of the regex `/Qase:(\d+)/`. -/
def qasePat : List Char := ['Q', 'a', 's', 'e', ':']

/-- Greedy `\d+` capture: the maximal leading digit run. -/
def takeDigits (l : List Char) : List Char :=
  l.takeWhile (fun c => c.isDigit)

/-- Match `/Qase:(\d+)/` anchored at the front of `l`: the literal `Qase:`
(case per flag) followed by at least one digit; returns the capture group. -/
def qaseMatchAt (ci : Bool) (l : List Char) : Option (List Char) :=
  match dropPat ci qasePat l with
  | none => none
  | some rest =>
    match takeDigits rest with
    | [] => none
    | d :: ds => some (d :: ds)

/-- `name.match(/Qase:(\d+)/)`: first position (left to right) where the
whole pattern matches; returns the first capture group. -/
def qaseSearch (ci : Bool) : List Char → Option (List Char)
  | [] => none
  | c :: cs =>
    match qaseMatchAt ci (c :: cs) with
    | some ds => some ds
    | none => qaseSearch ci cs

/-- `parseInt` on the captured digit run (digits only, so exact). -/
def parseDigits (l : List Char) : Nat :=
  l.foldl (fun acc c => 10 * acc + (c.toNat - 48)) 0

/-- `const match = name.match(/Qase:(\d+)/); match ? parseInt(match[1]) :
null` — Main and V1 use `ci = false` (no `i` flag on the regex), V0 uses
`ci = true` (`/Qase:(\d+)/i`). -/
def extractCaseId (ci : Bool) (name : List Char) : Option Nat :=
  (qaseSearch ci name).map parseDigits

/-- First-occurrence deduplication, the observable behaviour of
`[...new Set(xs)]` in insertion order. -/
def dedupFirst : List Nat → List Nat
  | [] => []
  | a :: l => a :: dedupFirst (l.filter (fun b => b != a))
termination_by l => l.length
decreasing_by
simp only [List.length_cons]
exact Nat.lt_succ_of_le (List.length_filter_le _ _)

/-- `caseIds = [...new Set(execs.map(extract).filter(Boolean))]`: the
`filter(Boolean)` drops both `null` (no match) and the number `0`. -/
def caseIds (ci : Bool) (execs : List Execution) : List Nat :=
  dedupFirst (((execs.map fun e => extractCaseId ci e.name).filterMap id).filter fun n => n != 0)

/-- The character class of the unescape regex
`/\\([\\`*_{}[\]()#+\-.!])/g` (backtick and braces written via code
points). -/
def mdSpecials : List Char :=
  ['\\', Char.ofNat 96, '*', '_', Char.ofNat 123, Char.ofNat 125,
   '[', ']', '(', ')', '#', '+', '-', '.', '!']

/-- `unescapeMarkdown` of Main and V0: global replace of a backslash
followed by a special character with that character, scanning left to
right (a match consumes both characters). V1 has no such function. -/
def unescapeMarkdown : List Char → List Char
  | [] => []
  | [c] => [c]
  | c :: c2 :: rest =>
    if c = '\\' ∧ c2 ∈ mdSpecials then c2 :: unescapeMarkdown rest
    else c :: unescapeMarkdown (c2 :: rest)

/-- One line of the comment: `a.error ? `❌ ${a.name}: ${a.error.message}`
: `✅ ${a.name}`` (identical in all three scripts). -/
def renderAssertion (a : Assertion) : List Char :=
  match a.error with
  | some msg => ("❌ ".toList) ++ a.name ++ (": ".toList) ++ msg
  | none => ("✅ ".toList) ++ a.name

/-- `comment = exec.assertions.map(render).join("\n")` (identical in all
three scripts). -/
def commentOf (assertions : List Assertion) : List Char :=
  List.intercalate ("\n".toList) (assertions.map renderAssertion)

/-- The body of the `GET /case/{project}/{caseId}` response:
`response.data.result`, whose `steps` field may be absent. -/
structure CaseResult where
  steps : Option (List CaseStep)

/-- `getCaseSteps`: `return response.data.result.steps || []` (identical in
all three scripts). -/
def getCaseSteps (r : CaseResult) : List CaseStep :=
  match r.steps with
  | some l => l
  | none => []

/-- The step matcher of Main (line 64) and V0 (line 71):
`exec.assertions.find(a => a.name === unescapeMarkdown(step.expected_result))`.
When `expected_result` is absent the comparison with `undefined` is false
for every (string-named) assertion, so no match. -/
def findAssertion (assertions : List Assertion) (er : Option (List Char)) : Option Assertion :=
  match er with
  | some s => assertions.find? (fun a => a.name == unescapeMarkdown s)
  | none => none

namespace Main

/-- A step entry of the `POST /result/...` payload built by
`submit_collection_results_to_qase.js` lines 66-71 (and, with the same
fields, by `part_001` lines 62-67). -/
structure StepVerdict where
  position : Nat
  action : Option (List Char)
  expected_result : List Char
  status : String
deriving DecidableEq

/-- One element of `stepsQase` (Main lines 62-72): `position: step.position
|| index + 1` (the number 0 is falsy, so it is also defaulted),
`expected_result: step.expected_result || "Expected result"` (an empty
string is falsy too), and the status from the matched assertion. -/
def mkStepVerdict (assertions : List Assertion) (index : Nat) (step : CaseStep) : StepVerdict :=
  { position :=
      match step.position with
      | some p => if p != 0 then p else index + 1
      | none => index + 1
    action := step.action
    expected_result :=
      match step.expected_result with
      | some s => if s.isEmpty then ("Expected result".toList) else s
      | none => ("Expected result".toList)
    status :=
      match findAssertion assertions step.expected_result with
      | some a =>
        match a.error with
        | some _ => "failed"
        | none => "passed"
      | none => "failed" }

/-- `qaseSteps.map((step, index) => ...)` unrolled with an explicit running
index. -/
def stepsQaseAux (assertions : List Assertion) (index : Nat) : List CaseStep → List StepVerdict
  | [] => []
  | step :: rest => mkStepVerdict assertions index step :: stepsQaseAux assertions (index + 1) rest

/-- `const stepsQase = qaseSteps.map((step, index) => ...)` (Main lines
62-72). -/
def stepsQase (assertions : List Assertion) (qsteps : List CaseStep) : List StepVerdict :=
  stepsQaseAux assertions 0 qsteps

/-- Main lines 74-75: `const failedChecker = stepsQase.every(a => a.status
!== "failed"); const passed = failedChecker ? "passed" : "failed"`. -/
def overallStatus (sv : List StepVerdict) : String :=
  if sv.all (fun a => a.status != "failed") then "passed" else "failed"

/-- The `POST /result/{project}/{runId}` payload of Main lines 81-94. -/
structure RunResult where
  case_id : Nat
  status : String
  comment : List Char
  steps : List StepVerdict
deriving DecidableEq

/-- The body of Main's `submitResults` loop for one execution: re-match the
pattern (skip on no match), fetch steps, build verdicts, status and
comment. `remote` maps a case id to the fetched `result` body. -/
def mkResult (remote : Nat → CaseResult) (exec : Execution) : Option RunResult :=
  match extractCaseId false exec.name with
  | none => none
  | some caseId =>
    let sv := stepsQase exec.assertions (getCaseSteps (remote caseId))
    some
      { case_id := caseId
        status := overallStatus sv
        comment := commentOf exec.assertions
        steps := sv }

/-- Main's `submitResults` (lines 55-96): the sequence of payloads posted,
one per execution whose name matches the pattern. -/
def submitResults (remote : Nat → CaseResult) (execs : List Execution) : List RunResult :=
  execs.filterMap (mkResult remote)

end Main

namespace V0

/-- `part_000` step payload, nested as `{ position, data: { action,
expected_result }, execution: { status } }` (lines 73-82). -/
structure StepData where
  action : Option (List Char)
  expected_result : List Char
deriving DecidableEq

structure StepExec where
  status : String
deriving DecidableEq

structure StepVerdict where
  position : Nat
  data : StepData
  execution : StepExec
deriving DecidableEq

/-- One element of `part_000`'s `stepsQase` (lines 69-83); same matcher and
defaulting as Main, nested output shape. -/
def mkStepVerdict (assertions : List Assertion) (index : Nat) (step : CaseStep) : StepVerdict :=
  { position :=
      match step.position with
      | some p => if p != 0 then p else index + 1
      | none => index + 1
    data :=
      { action := step.action
        expected_result :=
          match step.expected_result with
          | some s => if s.isEmpty then ("Expected result".toList) else s
          | none => ("Expected result".toList) }
    execution :=
      { status :=
          match findAssertion assertions step.expected_result with
          | some a =>
            match a.error with
            | some _ => "failed"
            | none => "passed"
          | none => "failed" } }

def stepsQaseAux (assertions : List Assertion) (index : Nat) : List CaseStep → List StepVerdict
  | [] => []
  | step :: rest => mkStepVerdict assertions index step :: stepsQaseAux assertions (index + 1) rest

def stepsQase (assertions : List Assertion) (qsteps : List CaseStep) : List StepVerdict :=
  stepsQaseAux assertions 0 qsteps

/-- `part_000` lines 85-86: `stepsQase.every(a => a.execution.status !==
"failed") ? "passed" : "failed"`. -/
def overallStatus (sv : List StepVerdict) : String :=
  if sv.all (fun a => a.execution.status != "failed") then "passed" else "failed"

/-- One record of `tc_results` (`part_000` lines 92-103): title, testops_id,
overall execution status, comment as `fields.description`, steps. -/
structure TcResult where
  title : List Char
  testops_id : Nat
  status : String
  description : List Char
  steps : List StepVerdict
deriving DecidableEq

/-- `part_000`'s loop body for one execution; the extraction uses the `i`
flag (`/Qase:(\d+)/i`, line 64). -/
def mkResult (remote : Nat → CaseResult) (exec : Execution) : Option TcResult :=
  match extractCaseId true exec.name with
  | none => none
  | some caseId =>
    let sv := stepsQase exec.assertions (getCaseSteps (remote caseId))
    some
      { title := exec.name
        testops_id := caseId
        status := overallStatus sv
        description := commentOf exec.assertions
        steps := sv }

/-- `part_000`'s `submitResults` (lines 61-119): the `tc_results` batch
posted to the v2 endpoint. -/
def submitResults (remote : Nat → CaseResult) (execs : List Execution) : List TcResult :=
  execs.filterMap (mkResult remote)

end V0

namespace V1

/-- The step matcher of `part_001` line 60:
`exec.assertions.find(a => a.name === step.expected_result)` — no
markdown-unescaping. -/
def findAssertion (assertions : List Assertion) (er : Option (List Char)) : Option Assertion :=
  match er with
  | some s => assertions.find? (fun a => a.name == s)
  | none => none

/-- One element of `part_001`'s `stepsQase` (lines 57-68): same output
shape as Main, but the raw matcher above. -/
def mkStepVerdict (assertions : List Assertion) (index : Nat) (step : CaseStep) : Main.StepVerdict :=
  { position :=
      match step.position with
      | some p => if p != 0 then p else index + 1
      | none => index + 1
    action := step.action
    expected_result :=
      match step.expected_result with
      | some s => if s.isEmpty then ("Expected result".toList) else s
      | none => ("Expected result".toList)
    status :=
      match findAssertion assertions step.expected_result with
      | some a =>
        match a.error with
        | some _ => "failed"
        | none => "passed"
      | none => "failed" }

def stepsQaseAux (assertions : List Assertion) (index : Nat) : List CaseStep → List Main.StepVerdict
  | [] => []
  | step :: rest => mkStepVerdict assertions index step :: stepsQaseAux assertions (index + 1) rest

def stepsQase (assertions : List Assertion) (qsteps : List CaseStep) : List Main.StepVerdict :=
  stepsQaseAux assertions 0 qsteps

/-- `part_001` line 72: `const passed = exec.assertions.every(a =>
!a.error)` — the overall status is derived from the assertions, not from
the step verdicts. -/
def overallStatus (assertions : List Assertion) : String :=
  if assertions.all (fun a => a.error.isNone) then "passed" else "failed"

/-- `part_001`'s loop body for one execution (lines 51-97): payload
`{case_id, status, comment, steps: stepsQase}`; extraction without the `i`
flag (line 52). -/
def mkResult (remote : Nat → CaseResult) (exec : Execution) : Option Main.RunResult :=
  match extractCaseId false exec.name with
  | none => none
  | some caseId =>
    some
      { case_id := caseId
        status := overallStatus exec.assertions
        comment := commentOf exec.assertions
        steps := stepsQase exec.assertions (getCaseSteps (remote caseId)) }

/-- `part_001`'s `submitResults` (lines 50-99). -/
def submitResults (remote : Nat → CaseResult) (execs : List Execution) : List Main.RunResult :=
  execs.filterMap (mkResult remote)

end V1

/-! ### Helper lemmas -/

theorem unescape_no_backslash : ∀ s : List Char, '\\' ∉ s → unescapeMarkdown s = s
  | [], _ => rfl
  | [_], _ => rfl
  | c :: c2 :: rest, h => by
    have hc : c ≠ '\\' := fun he => h (he ▸ List.mem_cons_self _ _)
    have h2 : '\\' ∉ c2 :: rest := fun hm => h (List.mem_cons_of_mem _ hm)
    have hcond : ¬(c = '\\' ∧ c2 ∈ mdSpecials) := fun hp => hc hp.1
    rw [unescapeMarkdown, if_neg hcond, unescape_no_backslash (c2 :: rest) h2]

theorem mem_dedupFirst (l : List Nat) (n : Nat) : n ∈ dedupFirst l ↔ n ∈ l := by
  induction l using dedupFirst.induct with
  | case1 => simp [dedupFirst]
  | case2 a l ih =>
    rw [dedupFirst]
    simp only [List.mem_cons, ih, List.mem_filter, bne_iff_ne, ne_eq, decide_eq_true_eq]
    by_cases hna : n = a <;> simp [hna]

theorem nodup_dedupFirst (l : List Nat) : (dedupFirst l).Nodup := by
  induction l using dedupFirst.induct with
  | case1 => simp [dedupFirst]
  | case2 a l ih =>
    rw [dedupFirst]
    refine List.nodup_cons.mpr ⟨?_, ih⟩
    intro hmem
    have hf := (mem_dedupFirst _ _).mp hmem
    have := (List.mem_filter.mp hf).2
    simp at this

theorem mem_caseIds (ci : Bool) (execs : List Execution) (n : Nat) :
    n ∈ caseIds ci execs ↔ n ≠ 0 ∧ ∃ e, e ∈ execs ∧ extractCaseId ci e.name = some n := by
  unfold caseIds
  rw [mem_dedupFirst, List.mem_filter, List.mem_filterMap]
  constructor
  · rintro ⟨⟨o, homem, ho⟩, hn⟩
    obtain ⟨e, he, heo⟩ := List.mem_map.mp homem
    refine ⟨by simpa using hn, e, he, ?_⟩
    rw [heo]
    exact ho
  · rintro ⟨hn, e, he, hex⟩
    exact ⟨⟨extractCaseId ci e.name, List.mem_map.mpr ⟨e, he, rfl⟩, hex⟩, by simpa using hn⟩

theorem findAssertion_eq_none (assertions : List Assertion) (er : Option (List Char))
    (h : ∀ a ∈ assertions, er.map unescapeMarkdown ≠ some a.name) :
    findAssertion assertions er = none := by
  rcases er with _ | s
  · rfl
  · refine List.find?_eq_none.mpr fun a ha hbeq => ?_
    have : a.name = unescapeMarkdown s := by simpa using hbeq
    exact h a ha (by simp [this])

namespace Main

theorem main_stepsQaseAux_status (assertions : List Assertion) :
    ∀ (qsteps : List CaseStep) (i : Nat), ∀ v ∈ stepsQaseAux assertions i qsteps,
      v.status = "passed" ∨ v.status = "failed" := by
  intro qsteps
  induction qsteps with
  | nil => intro i v hv; simp [stepsQaseAux] at hv
  | cons step rest ih =>
    intro i v hv
    rcases List.mem_cons.mp hv with hv | hv
    · subst hv
      cases h : findAssertion assertions step.expected_result with
      | none => exact Or.inr (by simp [mkStepVerdict, h])
      | some a =>
        cases he : a.error with
        | none => exact Or.inl (by simp [mkStepVerdict, h, he])
        | some m => exact Or.inr (by simp [mkStepVerdict, h, he])
    · exact ih (i + 1) v hv

theorem main_stepsQaseAux_failed_of_no_match (assertions : List Assertion) :
    ∀ (qsteps : List CaseStep) (i : Nat),
      (∀ step ∈ qsteps, findAssertion assertions step.expected_result = none) →
      ∀ v ∈ stepsQaseAux assertions i qsteps, v.status = "failed" := by
  intro qsteps
  induction qsteps with
  | nil => intro i _ v hv; simp [stepsQaseAux] at hv
  | cons step rest ih =>
    intro i h v hv
    rcases List.mem_cons.mp hv with hv | hv
    · subst hv
      simp [mkStepVerdict, h step (List.mem_cons_self _ _)]
    · exact ih (i + 1) (fun s hs => h s (List.mem_cons_of_mem _ hs)) v hv

theorem main_overallStatus_passed_iff (sv : List StepVerdict) :
    overallStatus sv = "passed" ↔ ∀ v ∈ sv, v.status ≠ "failed" := by
  unfold overallStatus
  by_cases h : (sv.all fun a => a.status != "failed") = true
  · rw [if_pos h]
    simp only [List.all_eq_true, bne_iff_ne, ne_eq] at h
    exact iff_of_true rfl h
  · rw [if_neg h]
    simp only [List.all_eq_true, bne_iff_ne, ne_eq] at h
    push_neg at h
    obtain ⟨v, hv, hvs⟩ := h
    exact iff_of_false (by decide) fun hall => hall v hv hvs

end Main

namespace V0

theorem v0_stepsQaseAux_status (assertions : List Assertion) :
    ∀ (qsteps : List CaseStep) (i : Nat), ∀ v ∈ stepsQaseAux assertions i qsteps,
      v.execution.status = "passed" ∨ v.execution.status = "failed" := by
  intro qsteps
  induction qsteps with
  | nil => intro i v hv; simp [stepsQaseAux] at hv
  | cons step rest ih =>
    intro i v hv
    rcases List.mem_cons.mp hv with hv | hv
    · subst hv
      cases h : findAssertion assertions step.expected_result with
      | none => exact Or.inr (by simp [mkStepVerdict, h])
      | some a =>
        cases he : a.error with
        | none => exact Or.inl (by simp [mkStepVerdict, h, he])
        | some m => exact Or.inr (by simp [mkStepVerdict, h, he])
    · exact ih (i + 1) v hv

theorem v0_stepsQaseAux_failed_of_no_match (assertions : List Assertion) :
    ∀ (qsteps : List CaseStep) (i : Nat),
      (∀ step ∈ qsteps, findAssertion assertions step.expected_result = none) →
      ∀ v ∈ stepsQaseAux assertions i qsteps, v.execution.status = "failed" := by
  intro qsteps
  induction qsteps with
  | nil => intro i _ v hv; simp [stepsQaseAux] at hv
  | cons step rest ih =>
    intro i h v hv
    rcases List.mem_cons.mp hv with hv | hv
    · subst hv
      simp [mkStepVerdict, h step (List.mem_cons_self _ _)]
    · exact ih (i + 1) (fun s hs => h s (List.mem_cons_of_mem _ hs)) v hv

theorem v0_overallStatus_passed_iff (sv : List StepVerdict) :
    overallStatus sv = "passed" ↔ ∀ v ∈ sv, v.execution.status ≠ "failed" := by
  unfold overallStatus
  by_cases h : (sv.all fun a => a.execution.status != "failed") = true
  · rw [if_pos h]
    simp only [List.all_eq_true, bne_iff_ne, ne_eq] at h
    exact iff_of_true rfl h
  · rw [if_neg h]
    simp only [List.all_eq_true, bne_iff_ne, ne_eq] at h
    push_neg at h
    obtain ⟨v, hv, hvs⟩ := h
    exact iff_of_false (by decide) fun hall => hall v hv hvs

end V0

theorem Main.main_overallStatus_failed_of_mem (sv : List Main.StepVerdict) (v : Main.StepVerdict)
    (hv : v ∈ sv) (hf : v.status = "failed") : Main.overallStatus sv = "failed" := by
  unfold Main.overallStatus
  have hcond : ¬(sv.all fun a => a.status != "failed") = true := by
    simp only [List.all_eq_true, bne_iff_ne, ne_eq]
    push_neg
    exact ⟨v, hv, hf⟩
  rw [if_neg hcond]

theorem V0.v0_overallStatus_failed_of_mem (sv : List V0.StepVerdict) (v : V0.StepVerdict)
    (hv : v ∈ sv) (hf : v.execution.status = "failed") : V0.overallStatus sv = "failed" := by
  unfold V0.overallStatus
  have hcond : ¬(sv.all fun a => a.execution.status != "failed") = true := by
    simp only [List.all_eq_true, bne_iff_ne, ne_eq]
    push_neg
    exact ⟨v, hv, hf⟩
  rw [if_neg hcond]

/-! ### Claims -/

/-- C1, as frozen, is false on `submit_collection_results_to_qase.js` (and
`part_001`): their regex `/Qase:(\d+)/` has no `i` flag, so a name carrying
`qase:12` yields no CaseId at all, not CaseId 12. -/
theorem c1_counterexample :
    extractCaseId false ("qase:12".toList) ≠ some 12
    ∧ extractCaseId false ("qase:12".toList) = none
    ∧ extractCaseId false ("Qase:12".toList) = some 12 :=
  ⟨by decide, by decide, by decide⟩

/-- C1 (amended): only `part_000` applies the pattern case-insensitively
(`/Qase:(\d+)/i`): every case-variant spelling of `Qase:12` yields CaseId
12 there. `submit_collection_results_to_qase.js` and `part_001` match
case-sensitively: `Qase:12` yields 12 but `qase:12` yields none. -/
theorem c1_theorem :
    (∀ c₁ ∈ ['Q', 'q'], ∀ c₂ ∈ ['A', 'a'], ∀ c₃ ∈ ['S', 's'], ∀ c₄ ∈ ['E', 'e'],
      extractCaseId true [c₁, c₂, c₃, c₄, ':', '1', '2'] = some 12)
    ∧ extractCaseId false ("Qase:12".toList) = some 12
    ∧ extractCaseId false ("qase:12".toList) = none :=
  ⟨by decide, by decide, by decide⟩

/-- C1 witness: the amended theorem applied to the mixed-case spelling
`qAsE:12` under the `i`-flag extraction of `part_000`. -/
theorem c1_witness : extractCaseId true ['q', 'A', 's', 'E', ':', '1', '2'] = some 12 :=
  c1_theorem.1 'q' (by decide) 'A' (by decide) 's' (by decide) 'E' (by decide)

/-- C4, as frozen, is false: `unescapeMarkdown` is not idempotent. On the
three-character input `\\.` one pass yields `\.` and a second pass yields
`.`. -/
theorem c4_counterexample :
    unescapeMarkdown (unescapeMarkdown ("\\\\.".toList)) ≠ unescapeMarkdown ("\\\\.".toList) := by
  decide

/-- C4 (amended): markdown-unescaping is idempotent on backslash-free
strings, where it is the identity; a remaining backslash can unescape
further on a second pass. -/
theorem c4_theorem (s : List Char) (h : '\\' ∉ s) :
    unescapeMarkdown s = s
    ∧ unescapeMarkdown (unescapeMarkdown s) = unescapeMarkdown s := by
  refine ⟨unescape_no_backslash s h, ?_⟩
  rw [unescape_no_backslash s h, unescape_no_backslash s h]

/-- C4 witness: the amended theorem applied to the backslash-free string
`ab.c`. -/
theorem c4_witness :
    unescapeMarkdown ("ab.c".toList) = ("ab.c".toList)
    ∧ unescapeMarkdown (unescapeMarkdown ("ab.c".toList)) = unescapeMarkdown ("ab.c".toList) :=
  c4_theorem ("ab.c".toList) (by decide)

/-- C7: the step fetcher returns the reported step list unchanged (order
preserved), and an absent or empty `steps` field gives the empty list
rather than a failure. -/
theorem c7_theorem :
    (∀ l : List CaseStep, getCaseSteps ⟨some l⟩ = l)
    ∧ getCaseSteps ⟨none⟩ = ([] : List CaseStep)
    ∧ getCaseSteps ⟨some []⟩ = ([] : List CaseStep) :=
  ⟨fun _ => rfl, rfl, rfl⟩

/-- C9: an execution whose name captures the digits `0` is dropped from the
run-creation CaseId list (`filter(Boolean)` drops the falsy number 0), yet
the submission loop re-matches the pattern, does not skip the execution,
and emits a result with `case_id` 0. -/
theorem c9_theorem (execs : List Execution) (remote : Nat → CaseResult) (exec : Execution)
    (hmem : exec ∈ execs) (h : extractCaseId false exec.name = some 0) :
    0 ∉ caseIds false execs
    ∧ ∃ r, r ∈ Main.submitResults remote execs ∧ r.case_id = 0 := by
  constructor
  · intro hc
    exact ((mem_caseIds false execs 0).mp hc).1 rfl
  · refine ⟨{ case_id := 0,
              status := Main.overallStatus (Main.stepsQase exec.assertions (getCaseSteps (remote 0))),
              comment := commentOf exec.assertions,
              steps := Main.stepsQase exec.assertions (getCaseSteps (remote 0)) },
            List.mem_filterMap.mpr ⟨exec, hmem, ?_⟩, rfl⟩
    simp [Main.mkResult, h]

/-- C9 witness: the execution named `Qase:0` on its own: CaseId 0 is
missing from the run-creation list but a result with `case_id` 0 is
submitted. -/
theorem c9_witness :
    0 ∉ caseIds false [⟨"Qase:0".toList, []⟩]
    ∧ ∃ r, r ∈ Main.submitResults (fun _ => ⟨none⟩) [⟨"Qase:0".toList, []⟩] ∧ r.case_id = 0 :=
  c9_theorem [⟨"Qase:0".toList, []⟩] (fun _ => ⟨none⟩) ⟨"Qase:0".toList, []⟩
    (List.mem_cons_self _ _) (by decide)

/-- C10: in all three scripts a source step whose `position` is the number
0 has its emitted position replaced by the 1-based index (`position ||
index + 1` treats 0 as absent), and every emitted position is at least 1. -/
theorem c10_theorem (assertions : List Assertion) (i : Nat) (step : CaseStep) :
    (step.position = some 0 →
      (Main.mkStepVerdict assertions i step).position = i + 1
      ∧ (V0.mkStepVerdict assertions i step).position = i + 1
      ∧ (V1.mkStepVerdict assertions i step).position = i + 1)
    ∧ 1 ≤ (Main.mkStepVerdict assertions i step).position
    ∧ 1 ≤ (V0.mkStepVerdict assertions i step).position
    ∧ 1 ≤ (V1.mkStepVerdict assertions i step).position := by
  rcases hp : step.position with _ | p
  · refine ⟨fun h => Option.noConfusion h, ?_, ?_, ?_⟩ <;>
      simp [Main.mkStepVerdict, V0.mkStepVerdict, V1.mkStepVerdict, hp]
  · by_cases h0 : p = 0
    · subst h0
      refine ⟨fun _ => ⟨?_, ?_, ?_⟩, ?_, ?_, ?_⟩ <;>
        simp [Main.mkStepVerdict, V0.mkStepVerdict, V1.mkStepVerdict, hp]
    · have hpos : 1 ≤ p := Nat.pos_of_ne_zero h0
      refine ⟨fun h => ?_, ?_, ?_, ?_⟩
      · exact absurd (Option.some.inj h) h0
      all_goals
        simp only [Main.mkStepVerdict, V0.mkStepVerdict, V1.mkStepVerdict, hp]
        simp [h0, hpos]

/-- C2, as frozen, is false on `part_001`: its overall status comes from
the assertions (`every(a => !a.error)`), not from the step verdicts. With
one error-free assertion `A` and one remote step expecting `B`, the single
step verdict is `failed` yet the submitted status is `passed`. -/
theorem c2_counterexample :
    (V1.submitResults (fun _ => ⟨some [⟨some 1, none, some ("B".toList)⟩]⟩)
        [⟨"Qase:1".toList, [⟨"A".toList, none⟩]⟩]).map
      (fun r => (r.status, r.steps.map Main.StepVerdict.status)) =
    [("passed", ["failed"])] := by
  decide

/-- C2 (amended): in `submit_collection_results_to_qase.js` and `part_000`
every submitted result's status is `passed` iff every one of its step
verdicts is `passed` (so an empty step list yields `passed`); in `part_001`
the status is `passed` iff every assertion lacks an error, independent of
the step verdicts. -/
theorem c2_theorem :
    (∀ (remote : Nat → CaseResult) (execs : List Execution),
      ∀ r ∈ Main.submitResults remote execs,
        (r.status = "passed" ↔ ∀ v ∈ r.steps, v.status = "passed"))
    ∧ (∀ (remote : Nat → CaseResult) (execs : List Execution),
      ∀ r ∈ V0.submitResults remote execs,
        (r.status = "passed" ↔ ∀ v ∈ r.steps, v.execution.status = "passed"))
    ∧ (∀ assertions : List Assertion,
        (V1.overallStatus assertions = "passed" ↔ ∀ a ∈ assertions, a.error = none))
    ∧ Main.overallStatus [] = "passed"
    ∧ V0.overallStatus [] = "passed" := by
  refine ⟨?_, ?_, ?_, rfl, rfl⟩
  · intro remote execs r hr
    obtain ⟨exec, hexec, hmk⟩ := List.mem_filterMap.mp hr
    rcases hx : extractCaseId false exec.name with _ | cid
    · simp [Main.mkResult, hx] at hmk
    · simp only [Main.mkResult, hx] at hmk
      injection hmk with hmk
      subst hmk
      show Main.overallStatus (Main.stepsQase exec.assertions (getCaseSteps (remote cid)))
          = "passed"
        ↔ ∀ v ∈ Main.stepsQase exec.assertions (getCaseSteps (remote cid)), v.status = "passed"
      rw [Main.main_overallStatus_passed_iff]
      constructor
      · intro hall v hv
        rcases Main.main_stepsQaseAux_status exec.assertions _ 0 v hv with hp | hf
        · exact hp
        · exact absurd hf (hall v hv)
      · intro hall v hv
        rw [hall v hv]
        decide
  · intro remote execs r hr
    obtain ⟨exec, hexec, hmk⟩ := List.mem_filterMap.mp hr
    rcases hx : extractCaseId true exec.name with _ | cid
    · simp [V0.mkResult, hx] at hmk
    · simp only [V0.mkResult, hx] at hmk
      injection hmk with hmk
      subst hmk
      show V0.overallStatus (V0.stepsQase exec.assertions (getCaseSteps (remote cid)))
          = "passed"
        ↔ ∀ v ∈ V0.stepsQase exec.assertions (getCaseSteps (remote cid)),
            v.execution.status = "passed"
      rw [V0.v0_overallStatus_passed_iff]
      constructor
      · intro hall v hv
        rcases V0.v0_stepsQaseAux_status exec.assertions _ 0 v hv with hp | hf
        · exact hp
        · exact absurd hf (hall v hv)
      · intro hall v hv
        rw [hall v hv]
        decide
  · intro assertions
    unfold V1.overallStatus
    by_cases h : (assertions.all fun a => a.error.isNone) = true
    · rw [if_pos h]
      simp only [List.all_eq_true, Option.isNone_iff_eq_none] at h
      exact iff_of_true rfl h
    · rw [if_neg h]
      simp only [List.all_eq_true, Option.isNone_iff_eq_none] at h
      push_neg at h
      obtain ⟨a, ha, hae⟩ := h
      exact iff_of_false (by decide) fun hall => hae (hall a ha)

/-- C2 witness: the amended theorem applied to the single result Main
submits for `Qase:5` when the remote case has no steps. -/
theorem c2_witness :
    ({ case_id := 5, status := "passed", comment := [],
       steps := [] } : Main.RunResult).status = "passed" ↔
    ∀ v ∈ ({ case_id := 5, status := "passed", comment := [],
             steps := [] } : Main.RunResult).steps,
      v.status = "passed" :=
  c2_theorem.1 (fun _ => ⟨none⟩) [⟨"Qase:5".toList, []⟩] _ (by decide)

/-- C3, as frozen, is false on `part_001`: its matcher compares the raw
`expected_result` without markdown-unescaping. Here the claim's criterion
holds (the assertion name `a.b` equals the unescaped `a\.b`) yet `part_001`
finds no match and marks the step `failed`. -/
theorem c3_counterexample :
    ("a.b".toList = unescapeMarkdown ("a\\.b".toList))
    ∧ V1.findAssertion [⟨"a.b".toList, none⟩] (some ("a\\.b".toList)) = none
    ∧ (V1.mkStepVerdict [⟨"a.b".toList, none⟩] 0 ⟨some 1, none, some ("a\\.b".toList)⟩).status
        = "failed" :=
  ⟨by decide, by decide, by decide⟩

/-- C3 (amended): in `submit_collection_results_to_qase.js` and `part_000`
a match exists exactly when some assertion's name equals the markdown-
unescaped `expected_result`, and the first such assertion (in assertion
order) is used; in `part_001` the comparison is raw string equality with no
unescaping. -/
theorem c3_theorem (assertions : List Assertion) (s : List Char) :
    ((findAssertion assertions (some s)).isSome
      ↔ ∃ a, a ∈ assertions ∧ a.name = unescapeMarkdown s)
    ∧ (∀ (l₁ : List Assertion) (a : Assertion) (l₂ : List Assertion),
        assertions = l₁ ++ a :: l₂ → a.name = unescapeMarkdown s →
        (∀ b ∈ l₁, b.name ≠ unescapeMarkdown s) →
        findAssertion assertions (some s) = some a)
    ∧ ((V1.findAssertion assertions (some s)).isSome
      ↔ ∃ a, a ∈ assertions ∧ a.name = s) := by
  refine ⟨?_, ?_, ?_⟩
  · show (assertions.find? fun a => a.name == unescapeMarkdown s).isSome ↔ _
    rw [List.find?_isSome]
    constructor
    · rintro ⟨a, ha, hp⟩
      exact ⟨a, ha, by simpa using hp⟩
    · rintro ⟨a, ha, hp⟩
      exact ⟨a, ha, by simpa using hp⟩
  · rintro l₁ a l₂ rfl hname hfirst
    show ((l₁ ++ a :: l₂).find? fun b => b.name == unescapeMarkdown s) = some a
    rw [List.find?_append]
    have h1 : (l₁.find? fun b => b.name == unescapeMarkdown s) = none :=
      List.find?_eq_none.mpr fun b hb hbeq => hfirst b hb (by simpa using hbeq)
    rw [h1, Option.none_or]
    exact List.find?_cons_of_pos _ (by simpa using hname)
  · show (assertions.find? fun a => a.name == s).isSome ↔ _
    rw [List.find?_isSome]
    constructor
    · rintro ⟨a, ha, hp⟩
      exact ⟨a, ha, by simpa using hp⟩
    · rintro ⟨a, ha, hp⟩
      exact ⟨a, ha, by simpa using hp⟩

/-- C3 witness: the amended theorem's first-match clause applied to a
two-assertion list where only the second assertion's name equals the
unescaped expected result `a\.b`. -/
theorem c3_witness :
    findAssertion [⟨"x".toList, none⟩, ⟨"a.b".toList, some ("err".toList)⟩]
        (some ("a\\.b".toList)) = some ⟨"a.b".toList, some ("err".toList)⟩ :=
  ( c3_theorem [⟨"x".toList, none⟩, ⟨"a.b".toList, some ("err".toList)⟩] ("a\\.b".toList)).2.1
    [⟨"x".toList, none⟩] ⟨"a.b".toList, some ("err".toList)⟩ [] rfl (by decide) (by decide)

/-- C5: when no CaseStep matches any assertion (no assertion name equals
any step's unescaped expected result), every step verdict of Main and of
`part_000` is `failed`, and the overall status is `failed` for a nonempty
step list and `passed` for an empty one. -/
theorem c5_theorem (assertions : List Assertion) (qsteps : List CaseStep)
    (h : ∀ step ∈ qsteps, ∀ a ∈ assertions,
      step.expected_result.map unescapeMarkdown ≠ some a.name) :
    (∀ v ∈ Main.stepsQase assertions qsteps, v.status = "failed")
    ∧ (∀ v ∈ V0.stepsQase assertions qsteps, v.execution.status = "failed")
    ∧ (qsteps = [] →
        Main.overallStatus (Main.stepsQase assertions qsteps) = "passed"
        ∧ V0.overallStatus (V0.stepsQase assertions qsteps) = "passed")
    ∧ (qsteps ≠ [] →
        Main.overallStatus (Main.stepsQase assertions qsteps) = "failed"
        ∧ V0.overallStatus (V0.stepsQase assertions qsteps) = "failed") := by
  have hnone : ∀ step ∈ qsteps, findAssertion assertions step.expected_result = none :=
    fun step hs => findAssertion_eq_none assertions step.expected_result
      fun a ha => h step hs a ha
  have hm := Main.main_stepsQaseAux_failed_of_no_match assertions qsteps 0 hnone
  have hv0 := V0.v0_stepsQaseAux_failed_of_no_match assertions qsteps 0 hnone
  refine ⟨hm, hv0, ?_, ?_⟩
  · rintro rfl
    exact ⟨rfl, rfl⟩
  · intro hne
    obtain ⟨st, rest, rfl⟩ := List.exists_cons_of_ne_nil hne
    have hv1 : Main.mkStepVerdict assertions 0 st ∈ Main.stepsQase assertions (st :: rest) :=
      List.mem_cons_self _ _
    have hv2 : V0.mkStepVerdict assertions 0 st ∈ V0.stepsQase assertions (st :: rest) :=
      List.mem_cons_self _ _
    exact ⟨Main.main_overallStatus_failed_of_mem _ _ hv1 (hm _ hv1),
      V0.v0_overallStatus_failed_of_mem _ _ hv2 (hv0 _ hv2)⟩

/-- C5 witness: one assertion `A`, one step expecting `B`: the step verdict
is `failed` in Main and `part_000` and the overall status is `failed`. -/
theorem c5_witness :
    (∀ v ∈ Main.stepsQase [⟨"A".toList, none⟩] [⟨some 1, none, some ("B".toList)⟩],
        v.status = "failed")
    ∧ (∀ v ∈ V0.stepsQase [⟨"A".toList, none⟩] [⟨some 1, none, some ("B".toList)⟩],
        v.execution.status = "failed")
    ∧ ([⟨some 1, none, some ("B".toList)⟩] = ([] : List CaseStep) →
        Main.overallStatus (Main.stepsQase [⟨"A".toList, none⟩]
          [⟨some 1, none, some ("B".toList)⟩]) = "passed"
        ∧ V0.overallStatus (V0.stepsQase [⟨"A".toList, none⟩]
            [⟨some 1, none, some ("B".toList)⟩]) = "passed")
    ∧ ([⟨some 1, none, some ("B".toList)⟩] ≠ ([] : List CaseStep) →
        Main.overallStatus (Main.stepsQase [⟨"A".toList, none⟩]
          [⟨some 1, none, some ("B".toList)⟩]) = "failed"
        ∧ V0.overallStatus (V0.stepsQase [⟨"A".toList, none⟩]
            [⟨some 1, none, some ("B".toList)⟩]) = "failed") :=
  c5_theorem [⟨"A".toList, none⟩] [⟨some 1, none, some ("B".toList)⟩] (by decide)

/-- C6: the run-creation CaseId list contains no duplicates (each id at
most once), and it contains exactly the nonzero ids extracted from some
execution's name — so two executions referencing the same CaseId
contribute one entry. Holds for both extraction variants. -/
theorem c6_theorem (ci : Bool) (execs : List Execution) :
    (caseIds ci execs).Nodup
    ∧ (∀ n : Nat, (caseIds ci execs).count n ≤ 1)
    ∧ ∀ n : Nat,
        (n ∈ caseIds ci execs ↔ n ≠ 0 ∧ ∃ e, e ∈ execs ∧ extractCaseId ci e.name = some n) :=
  ⟨nodup_dedupFirst _,
   fun n => List.nodup_iff_count_le_one.mp (nodup_dedupFirst _) n,
   fun n => mem_caseIds ci execs n⟩

/-- C8: the rendered comment, split on newlines, is exactly one rendered
line per assertion in assertion order — a check-mark line with the name
for an error-free assertion, a cross line with the name and error message
otherwise — provided names and messages contain no newline themselves. -/
theorem c8_theorem (assertions : List Assertion)
    (h : ∀ a ∈ assertions, '\n' ∉ a.name ∧ '\n' ∉ a.error.getD []) :
    (assertions ≠ [] →
      (commentOf assertions).splitOn '\n' = assertions.map renderAssertion)
    ∧ ∀ a ∈ assertions,
        (a.error = none → renderAssertion a = ("✅ ".toList) ++ a.name)
        ∧ ∀ m, a.error = some m →
            renderAssertion a = ("❌ ".toList) ++ a.name ++ (": ".toList) ++ m := by
  constructor
  · intro hne
    have hsep : ("\n".toList) = ['\n'] := rfl
    unfold commentOf
    rw [hsep]
    have hx : ∀ l ∈ assertions.map renderAssertion, '\n' ∉ l := by
      intro l hl hmem
      obtain ⟨a, ha, rfl⟩ := List.mem_map.mp hl
      obtain ⟨hn, he⟩ := h a ha
      rcases hae : a.error with _ | m
      · simp only [renderAssertion, hae] at hmem
        rcases List.mem_append.mp hmem with hm | hm
        · simp at hm
        · exact hn hm
      · simp only [hae, Option.getD_some] at he
        simp only [renderAssertion, hae] at hmem
        simp only [List.mem_append] at hmem
        rcases hmem with ((hm | hm) | hm) | hm
        · simp at hm
        · exact hn hm
        · simp at hm
        · exact he hm
    exact List.splitOn_intercalate _ '\n' hx (by simpa using hne)
  · intro a ha
    constructor
    · intro hae
      simp [renderAssertion, hae]
    · intro m hae
      simp [renderAssertion, hae]

/-- C8 witness: the comment for a passing assertion `ok` and a failing
assertion `bad` (message `boom`) splits into the two rendered lines. -/
theorem c8_witness :
    (commentOf [⟨"ok".toList, none⟩, ⟨"bad".toList, some ("boom".toList)⟩]).splitOn '\n'
      = [⟨"ok".toList, none⟩, ⟨"bad".toList, some ("boom".toList)⟩].map renderAssertion :=
  ( c8_theorem [⟨"ok".toList, none⟩, ⟨"bad".toList, some ("boom".toList)⟩] (by decide)).1
    (by decide)

/-- C10 witness: a step carrying `position = 0` at index 4 is emitted with
position 5 in all three scripts. -/
theorem c10_witness :
    (Main.mkStepVerdict [] 4 ⟨some 0, none, none⟩).position = 5
    ∧ (V0.mkStepVerdict [] 4 ⟨some 0, none, none⟩).position = 5
    ∧ (V1.mkStepVerdict [] 4 ⟨some 0, none, none⟩).position = 5 :=
  ( c10_theorem [] 4 ⟨some 0, none, none⟩).1 rfl

end CollectionRunToQase
